import Mathlib

/-!
Verification development for the multiexchangetrade strategy-evaluation
engine.  The Python sources are shallowly embedded over exact rationals:

* `WeightedSignals` embeds `src/indicators/weighted_signals.py`
  (class `WeightedSignalGenerator`).
* `Backtester` embeds `src/backtester/enhanced_backtester.py`
  (class `EnhancedBacktester`): timeframe handling, the trading
  simulation loop `_simulate_trading`, and `_calculate_enhanced_metrics`.

The indicator primitives `rsi` and `wavetrend` (files `indicators/rsi.py`
and `indicators/wavetrend.py`) and the class `AdvancedRiskManager`
(file `utils/advanced_risk.py`) are imported by the sources but are not
among them; the signal maps are therefore embedded as functions of the
indicator values, and the risk manager is modelled from the spec where
noted.  Python floats are modelled by `Rat` (with a dedicated marker for
the value produced by the expression float applied to the string inf);
the tolerance checks of the code make the distinction immaterial for the
stated properties.
-/

namespace WeightedSignals

/-- The three weights stored by the constructor of
`WeightedSignalGenerator` (weighted_signals.py lines 27 to 29). -/
structure WeightedSignalGenerator where
  rsi_weight : ℚ
  wavetrend_weight : ℚ
  buy_sell_weight : ℚ
deriving DecidableEq

/-- Embeds `WeightedSignalGenerator.__init__` (lines 15 to 34): the weights
are stored as given, and a `ValueError` is raised exactly when the absolute
difference between their sum and 1.0 exceeds 0.001. -/
def WeightedSignalGenerator.init (rsi_weight wavetrend_weight buy_sell_weight : ℚ) :
    Except String WeightedSignalGenerator :=
  let total_weight := rsi_weight + wavetrend_weight + buy_sell_weight
  if |total_weight - 1| > 1/1000 then
    Except.error "Weights must sum to 1.0"
  else
    Except.ok ⟨rsi_weight, wavetrend_weight, buy_sell_weight⟩

/-- The pointwise RSI-to-signal map of `generate_rsi_signal`
(lines 53 to 63): the nested `np.where` applied to one RSI value. -/
def rsiSignalOf (oversold overbought rsi_value : ℚ) : ℚ :=
  if rsi_value ≤ oversold then 1
  else if overbought ≤ rsi_value then -1
  else if rsi_value < 50 then (50 - rsi_value) / (50 - oversold)
  else -(rsi_value - 50) / (overbought - 50)

/-- Embeds `generate_rsi_signal` (lines 36 to 65).  The call
`rsi(df.close, length)` lives in `indicators/rsi.py`, which is not among
the sources, so the embedding takes the RSI value series as its input and
applies the mapping of lines 53 to 63 elementwise. -/
def generate_rsi_signal (oversold overbought : ℚ) (rsi_values : List ℚ) : List ℚ :=
  rsi_values.map (rsiSignalOf oversold overbought)

/-- The pointwise WaveTrend-to-signal map of `generate_wavetrend_signal`
(lines 89 to 98): the nested `np.where` applied to one WT1/WT2 pair. -/
def wtSignalOf (wt1 wt2 : ℚ) : ℚ :=
  if wt2 < wt1 ∧ wt1 < -50 then 1
  else if wt1 < wt2 ∧ 50 < wt1 then -1
  else if wt2 < wt1 then 1/2
  else -(1/2)

/-- Embeds `generate_wavetrend_signal` (lines 67 to 100).  The call to
`wavetrend` lives in `indicators/wavetrend.py`, which is not among the
sources, so the embedding takes the WT1/WT2 pair series as its input. -/
def generate_wavetrend_signal (wt : List (ℚ × ℚ)) : List ℚ :=
  wt.map fun p => wtSignalOf p.1 p.2

/-- pandas `rolling(window=w, min_periods=1).mean()` at index `i`: the mean
of the entries at indices `max (0, i+1-w)` to `i`. -/
def rollingMean (w : Nat) (prices : List ℚ) (i : Nat) : ℚ :=
  let window := (prices.take (i + 1)).drop (i + 1 - w)
  window.sum / (window.length : ℚ)

/-- `np.clip(x, lo, hi)`. -/
def clip (lo hi x : ℚ) : ℚ := min hi (max lo x)

/-- The pointwise momentum map of `generate_buy_sell_signal`
(lines 111 to 125) given the price and the two rolling means. -/
def buySellSignalOf (price sma_short sma_long : ℚ) : ℚ :=
  let price_vs_short := (price - sma_short) / sma_short
  let price_vs_long := (price - sma_long) / sma_long
  let momentum_signal := (price_vs_short + price_vs_long) / 2
  clip (-1) 1 (momentum_signal * 10)

/-- Embeds `generate_buy_sell_signal` (lines 102 to 127). -/
def generate_buy_sell_signal (lookback : Nat) (prices : List ℚ) : List ℚ :=
  (List.range prices.length).map fun i =>
    buySellSignalOf (prices.getD i 0) (rollingMean 5 prices i) (rollingMean lookback prices i)

/-- One row of the dictionary returned by `generate_weighted_signal`
(lines 164 to 171). -/
structure SignalBundle where
  rsi_signal : ℚ
  wavetrend_signal : ℚ
  buy_sell_signal : ℚ
  weighted_signal : ℚ
  final_long : Bool
  final_short : Bool
deriving DecidableEq

/-- The per-bar fusion of `generate_weighted_signal` (lines 152 to 162):
the weighted sum of the three sub-signals and the two threshold booleans. -/
def WeightedSignalGenerator.fuse (g : WeightedSignalGenerator) (r w b : ℚ) : SignalBundle :=
  let weighted_signal := r * g.rsi_weight + w * g.wavetrend_weight + b * g.buy_sell_weight
  { rsi_signal := r
    wavetrend_signal := w
    buy_sell_signal := b
    weighted_signal := weighted_signal
    final_long := decide (weighted_signal > 3/10)
    final_short := decide (weighted_signal < -(3/10)) }

/-- Embeds `generate_weighted_signal` (lines 129 to 171): the three signal
series are produced and fused bar by bar with the stored weights. -/
def generate_weighted_signal (g : WeightedSignalGenerator)
    (rsi_oversold rsi_overbought : ℚ) (momentum_lookback : Nat)
    (rsi_values : List ℚ) (wt : List (ℚ × ℚ)) (prices : List ℚ) : List SignalBundle :=
  let rsi_sig := generate_rsi_signal rsi_oversold rsi_overbought rsi_values
  let wt_sig := generate_wavetrend_signal wt
  let bs_sig := generate_buy_sell_signal momentum_lookback prices
  (rsi_sig.zip (wt_sig.zip bs_sig)).map fun t => g.fuse t.1 t.2.1 t.2.2

end WeightedSignals

namespace Backtester

open WeightedSignals

/-- `EnhancedBacktester.supported_timeframes` (enhanced_backtester.py
lines 20 to 33). -/
def supported_timeframes : List String :=
  ["1m", "2m", "3m", "5m", "10m", "15m", "20m", "30m",
   "1h", "2h", "3h", "4h", "6h", "8h", "12h",
   "1d", "2d", "3d", "5d",
   "1w", "2w", "3w",
   "1M", "2M", "3M", "6M",
   "1y", "2y", "5y"]

/-- The `timeframe_map` dictionary of `_convert_timeframe_to_yfinance`
(lines 156 to 161). -/
def timeframe_map : List (String × String) :=
  [("1m", "1m"), ("2m", "2m"), ("5m", "5m"), ("15m", "15m"), ("30m", "30m"),
   ("1h", "1h"), ("2h", "2h"), ("4h", "4h"), ("6h", "6h"), ("12h", "12h"),
   ("1d", "1d"), ("5d", "5d"), ("1w", "1wk"), ("1M", "1mo"), ("3M", "3mo"),
   ("6M", "6mo"), ("1y", "1y"), ("2y", "2y"), ("5y", "5y")]

/-- Embeds `_convert_timeframe_to_yfinance` (lines 146 to 163):
`timeframe_map.get(timeframe, one-day)`. -/
def convert_timeframe_to_yfinance (timeframe : String) : String :=
  (timeframe_map.lookup timeframe).getD "1d"

/-- Embeds `validate_timeframe` (lines 497 to 507). -/
def validate_timeframe (timeframe : String) : Bool :=
  supported_timeframes.contains timeframe

/-- The timeframe validation gate at the top of `run_enhanced_backtest`
(lines 248 to 250): a `ValueError` is raised exactly when the timeframe is
not a member of `supported_timeframes`. -/
def run_enhanced_backtest_check (timeframe : String) : Except String Unit :=
  if supported_timeframes.contains timeframe then Except.ok ()
  else Except.error "Unsupported timeframe"

/-- Model of a Python float that may be the IEEE infinity produced at
line 446 by the float constructor; finite values are exact rationals. -/
inductive PyFloat
  | finite (q : ℚ)
  | inf
deriving DecidableEq

/-- One element of the `trades` list built by `_simulate_trading`:
either an entry record (lines 362 to 370 and 384 to 392, dictionaries
carrying the key action with value open and no pnl key) or an exit record
emitted by `update_position` (a TradeRecord in the sense of the spec,
carrying a pnl key). -/
inductive LedgerEntry
  | openRec (position_id : Nat) (symbol side : String)
      (entry_price quantity : ℚ) (timestamp : Nat)
  | closeRec (position_id : Nat) (side : String)
      (entry_price exit_price quantity pnl : ℚ)
      (exit_reason : String) (timestamp : Nat)
deriving DecidableEq

/-- The membership test for the key pnl used at line 434: exit records
carry a pnl, entry records do not. -/
def LedgerEntry.pnl? : LedgerEntry → Option ℚ
  | .openRec _ _ _ _ _ _ => none
  | .closeRec _ _ _ _ _ pnl _ _ => some pnl

/-- The pnl values of the closed trades (those ledger entries carrying a
pnl key), in ledger order (line 434). -/
def closedPnls (trades : List LedgerEntry) : List ℚ :=
  trades.filterMap LedgerEntry.pnl?

/-- The sum of the pnl values of the winning trades (line 444). -/
def total_profit_of (closed : List ℚ) : ℚ :=
  (closed.filter (fun p => 0 < p)).sum

/-- The absolute value of the sum of the pnl values of the losing trades
(line 445). -/
def total_loss_of (closed : List ℚ) : ℚ :=
  |(closed.filter (fun p => p < 0)).sum|

/-- `profit_factor = total_profit / total_loss if total_loss > 0 else
float inf` (line 446). -/
def profit_factor_of (closed : List ℚ) : PyFloat :=
  if 0 < total_loss_of closed then
    .finite (total_profit_of closed / total_loss_of closed)
  else .inf

/-- `np.min` over a list, with the value 0 used by the code when the list
is empty (line 459 guard). -/
def listMin : List ℚ → ℚ
  | [] => 0
  | x :: xs => xs.foldl min x

/-- `np.max` over a list, with the value 0 used by the code when the list
is empty (line 471 guard). -/
def listMax : List ℚ → ℚ
  | [] => 0
  | x :: xs => xs.foldl max x

/-- The tail of `np.maximum.accumulate` given the running maximum so far. -/
def runningPeakFrom (acc : ℚ) : List ℚ → List ℚ
  | [] => []
  | x :: xs => max acc x :: runningPeakFrom (max acc x) xs

/-- `np.maximum.accumulate(equity_curve)` (line 457). -/
def runningPeak : List ℚ → List ℚ
  | [] => []
  | x :: xs => x :: runningPeakFrom x xs

/-- `(np.array(equity_curve) - peak) / peak` (line 458). -/
def drawdowns (equity_curve : List ℚ) : List ℚ :=
  List.zipWith (fun e p => (e - p) / p) equity_curve (runningPeak equity_curve)

/-- `max_drawdown = np.min(drawdown) if len(drawdown) > 0 else 0`
(line 459). -/
def max_drawdown (equity_curve : List ℚ) : ℚ :=
  listMin (drawdowns equity_curve)

/-- The max-drawdown formula as the spec words it: the minimum over time of
`(equity - running_peak) / running_peak`, where the running peak at index
`i` is the maximum of the first `i + 1` equities. -/
def maxDrawdownSpec (equity_curve : List ℚ) : ℚ :=
  listMin ((List.range equity_curve.length).map fun i =>
    let peak := listMax (equity_curve.take (i + 1))
    (equity_curve.getD i 0 - peak) / peak)

/-- `returns = np.diff(equity_curve) / equity_curve[:-1]` (line 451). -/
def dailyReturns (equity_curve : List ℚ) : List ℚ :=
  (equity_curve.zip equity_curve.tail).map fun p => (p.2 - p.1) / p.1

/-- Modelled from the spec: one open position owned by the
`AdvancedRiskManager` of `utils/advanced_risk.py`, a file that is not
among the sources.  Fields follow the Position record of spec section 3
and the TP/SL level formulas of spec section 4.3; the simulator reads the
fields id, symbol, side, entry_price and quantity. -/
structure Position where
  id : Nat
  symbol : String
  side : String
  entry_price : ℚ
  quantity : ℚ
  remaining_quantity : ℚ
  stop_loss_price : ℚ
  tp1_price : ℚ
  tp2_price : ℚ
  runner_price : ℚ
  tp1_done : Bool
  tp2_done : Bool
deriving DecidableEq

/-- Modelled from the spec: the state of `AdvancedRiskManager`
(spec sections 3 and 4.3; `utils/advanced_risk.py` is not among the
sources).  `day_start_capital` is the starting capital of the current
calendar day and `breaker_triggered` the latched daily-breaker flag. -/
structure AdvancedRiskManager where
  current_capital : ℚ
  risk_per_trade : ℚ
  daily_loss_limit : ℚ
  day_start_capital : ℚ
  realized_daily_pnl : ℚ
  breaker_triggered : Bool
  positions : List Position
  next_id : Nat
deriving DecidableEq

/-- Modelled from the spec: construction of the risk manager from the
arguments passed at lines 260 to 264 of the source. -/
def AdvancedRiskManager.init (initial_capital risk_per_trade daily_loss_limit : ℚ) :
    AdvancedRiskManager :=
  ⟨initial_capital, risk_per_trade, daily_loss_limit, initial_capital, 0, false, [], 1⟩

/-- Modelled from the spec: `is_daily_breaker_triggered` returns true once
`realized_daily_pnl ≤ -(daily_loss_limit * starting_capital_for_day)`,
and stays true (latched flag) until the next reset. -/
def AdvancedRiskManager.is_daily_breaker_triggered (rm : AdvancedRiskManager) : Bool :=
  rm.breaker_triggered ||
    decide (rm.realized_daily_pnl ≤ -(rm.daily_loss_limit * rm.day_start_capital))

/-- Modelled from the spec: `reset_daily_tracking` zeroes the realized
daily pnl, clears the breaker flag, and lets `current_capital` carry
forward as the starting capital of the new day. -/
def AdvancedRiskManager.reset_daily_tracking (rm : AdvancedRiskManager) : AdvancedRiskManager :=
  { rm with
    realized_daily_pnl := 0
    breaker_triggered := false
    day_start_capital := rm.current_capital }

/-- Modelled from the spec: realize a pnl, updating capital and the daily
counter and latching the breaker flag once the daily loss threshold is
crossed. -/
def AdvancedRiskManager.applyRealized (rm : AdvancedRiskManager) (pnl : ℚ) :
    AdvancedRiskManager :=
  let pnl2 := rm.realized_daily_pnl + pnl
  { rm with
    current_capital := rm.current_capital + pnl
    realized_daily_pnl := pnl2
    breaker_triggered := rm.breaker_triggered ||
      decide (pnl2 ≤ -(rm.daily_loss_limit * rm.day_start_capital)) }

/-- Modelled from the spec: `open_position` (spec section 4.3).  Returns
no position (and leaves the state unchanged) when the daily breaker is
triggered or when the computed quantity is non-positive; otherwise sizes
the position from the risk budget and derives the TP/SL levels from the
risk distance, mirrored for shorts. -/
def AdvancedRiskManager.open_position (rm : AdvancedRiskManager)
    (symbol side : String)
    (entry_price stop_loss_price tp1_multiplier tp2_multiplier runner_multiplier : ℚ) :
    Option Position × AdvancedRiskManager :=
  if rm.is_daily_breaker_triggered then (none, rm)
  else
    let risk_amount := rm.current_capital * rm.risk_per_trade
    let risk_distance := |entry_price - stop_loss_price|
    let quantity := risk_amount / risk_distance
    if quantity ≤ 0 then (none, rm)
    else
      let dir : ℚ := if side = "buy" then 1 else -1
      let p : Position :=
        { id := rm.next_id
          symbol := symbol
          side := side
          entry_price := entry_price
          quantity := quantity
          remaining_quantity := quantity
          stop_loss_price := stop_loss_price
          tp1_price := entry_price + dir * tp1_multiplier * risk_distance
          tp2_price := entry_price + dir * tp2_multiplier * risk_distance
          runner_price := entry_price + dir * runner_multiplier * risk_distance
          tp1_done := false
          tp2_done := false }
      (some p, { rm with positions := rm.positions ++ [p], next_id := rm.next_id + 1 })

/-- The status values of the dictionary returned by `update_position`,
compared against the strings fully_closed and others at line 344. -/
inductive UpdateStatus
  | fullClosed
  | partClosed
  | stillOpen
  | notFound
deriving DecidableEq

/-- Modelled from the spec: whether the current price touches the stop of
a position (long: at or below; short: at or above). -/
def Position.hitStop (p : Position) (price : ℚ) : Bool :=
  if p.side = "buy" then decide (price ≤ p.stop_loss_price)
  else decide (p.stop_loss_price ≤ price)

/-- Modelled from the spec: whether the current price reaches a profit
level of a position (long: at or above; short: at or below). -/
def Position.hitLevel (p : Position) (price level : ℚ) : Bool :=
  if p.side = "buy" then decide (level ≤ price) else decide (price ≤ level)

/-- Modelled from the spec: realized pnl of a quantity exited at a
price. -/
def Position.pnlOf (p : Position) (exit_price qty : ℚ) : ℚ :=
  if p.side = "buy" then (exit_price - p.entry_price) * qty
  else (p.entry_price - exit_price) * qty

/-- Modelled from the spec: `update_position` (spec section 4.3), called
once per bar per open position.  Exit precedence: stop-loss first, then
the runner level, then the TP tiers; TP1 and TP2 each release one third
of the original quantity, the runner closes the remainder.  Returns the
status, the emitted trade record if any, and the new state. -/
def AdvancedRiskManager.update_position (rm : AdvancedRiskManager)
    (pid : Nat) (price : ℚ) (ts : Nat) :
    UpdateStatus × Option LedgerEntry × AdvancedRiskManager :=
  match rm.positions.find? (fun p => p.id = pid) with
  | none => (.notFound, none, rm)
  | some p =>
    if p.hitStop price then
      let pnl := p.pnlOf price p.remaining_quantity
      let rm2 := rm.applyRealized pnl
      (.fullClosed,
       some (.closeRec p.id p.side p.entry_price price p.remaining_quantity pnl
              "stop_loss" ts),
       { rm2 with positions := rm2.positions.filter (fun q => q.id ≠ pid) })
    else if p.hitLevel price p.runner_price then
      let pnl := p.pnlOf price p.remaining_quantity
      let rm2 := rm.applyRealized pnl
      (.fullClosed,
       some (.closeRec p.id p.side p.entry_price price p.remaining_quantity pnl
              "runner" ts),
       { rm2 with positions := rm2.positions.filter (fun q => q.id ≠ pid) })
    else if !p.tp1_done && p.hitLevel price p.tp1_price then
      let qty := p.quantity / 3
      let pnl := p.pnlOf price qty
      let rm2 := rm.applyRealized pnl
      (.partClosed,
       some (.closeRec p.id p.side p.entry_price price qty pnl "tp1" ts),
       { rm2 with positions := rm2.positions.map (fun q =>
          if q.id = pid then
            { q with remaining_quantity := q.remaining_quantity - qty, tp1_done := true }
          else q) })
    else if p.tp1_done && !p.tp2_done && p.hitLevel price p.tp2_price then
      let qty := p.quantity / 3
      let pnl := p.pnlOf price qty
      let rm2 := rm.applyRealized pnl
      (.partClosed,
       some (.closeRec p.id p.side p.entry_price price qty pnl "tp2" ts),
       { rm2 with positions := rm2.positions.map (fun q =>
          if q.id = pid then
            { q with remaining_quantity := q.remaining_quantity - qty, tp2_done := true }
          else q) })
    else (.stillOpen, none, rm)

/-- The daily summary dictionary: the snapshot returned by
`get_portfolio_summary` with the date key the simulator adds at lines 332
and 397 (no date for the final risk summary of line 403). -/
structure Summary where
  date : Option Int
  current_capital : ℚ
  realized_daily_pnl : ℚ
  breaker_triggered : Bool
  open_positions : Nat
deriving DecidableEq

/-- Modelled from the spec: `get_portfolio_summary` is a pure read
returning the DailyRiskState snapshot; the date argument embeds the
assignment the simulator performs on the returned dictionary. -/
def AdvancedRiskManager.get_portfolio_summary (rm : AdvancedRiskManager) (d : Option Int) :
    Summary :=
  ⟨d, rm.current_capital, rm.realized_daily_pnl, rm.breaker_triggered, rm.positions.length⟩

/-- One row of the dataframe as read by `_simulate_trading`: the close,
the timestamp, its calendar date, and the two signal columns added at
lines 277 to 279. -/
structure Bar where
  timestamp : Nat
  date : Int
  close : ℚ
  final_long : Bool
  final_short : Bool
deriving DecidableEq

/-- The loop state of `_simulate_trading` (lines 319 to 321). -/
structure SimState where
  rm : AdvancedRiskManager
  trades : List LedgerEntry
  daily_summaries : List Summary
  current_date : Option Int
deriving DecidableEq

/-- The day-rollover block of `_simulate_trading` (lines 327 to 338):
on a date change, snapshot the prior day and reset the daily tracking. -/
def dayRolloverPhase (s : SimState) (bar : Bar) : SimState :=
  if s.current_date ≠ some bar.date then
    match s.current_date with
    | none => { s with current_date := some bar.date }
    | some d =>
      { s with
        daily_summaries := s.daily_summaries ++ [s.rm.get_portfolio_summary (some d)]
        rm := s.rm.reset_daily_tracking
        current_date := some bar.date }
  else s

/-- One iteration of the position-update loop of `_simulate_trading`
(lines 341 to 345): update one position and append its trade record when
the status is fully_closed or partially closed. -/
def updateStepF (bar : Bar) (acc : SimState) (p : Position) : SimState :=
  let r := acc.rm.update_position p.id bar.close bar.timestamp
  { acc with
    rm := r.2.2
    trades := if r.1 = .fullClosed ∨ r.1 = .partClosed then
        acc.trades ++ r.2.1.toList
      else acc.trades }

/-- The position-update loop of `_simulate_trading` (lines 341 to 345),
iterating over a copy of the position list taken before the loop. -/
def updatePhase (s : SimState) (bar : Bar) : SimState :=
  s.rm.positions.foldl (updateStepF bar) s

/-- The entry block of `_simulate_trading` (lines 347 to 392): when the
daily breaker is not triggered, open a long position when final_long
holds (stop at 98 percent of the close) and a short position when
final_short holds (stop at 102 percent of the close), appending an entry
record for each position actually opened. -/
def entryPhase (s : SimState) (bar : Bar)
    (tp1_multiplier tp2_multiplier runner_multiplier : ℚ) : SimState :=
  if !s.rm.is_daily_breaker_triggered then
    let s1 :=
      if bar.final_long then
        let stop_loss_price := bar.close * (98/100)
        let r := s.rm.open_position "SYMBOL" "buy" bar.close stop_loss_price
          tp1_multiplier tp2_multiplier runner_multiplier
        match r.1 with
        | some p =>
          { s with
            rm := r.2
            trades := s.trades ++
              [.openRec p.id p.symbol p.side p.entry_price p.quantity bar.timestamp] }
        | none => { s with rm := r.2 }
      else s
    if bar.final_short then
      let stop_loss_price := bar.close * (102/100)
      let r := s1.rm.open_position "SYMBOL" "sell" bar.close stop_loss_price
        tp1_multiplier tp2_multiplier runner_multiplier
      match r.1 with
      | some p =>
        { s1 with
          rm := r.2
          trades := s1.trades ++
            [.openRec p.id p.symbol p.side p.entry_price p.quantity bar.timestamp] }
      | none => { s1 with rm := r.2 }
    else s1
  else s

/-- One iteration of the bar loop of `_simulate_trading` (lines 323 to
392): day rollover, then position updates, then entries. -/
def simStep (tp1_multiplier tp2_multiplier runner_multiplier : ℚ)
    (s : SimState) (bar : Bar) : SimState :=
  entryPhase (updatePhase (dayRolloverPhase s bar) bar) bar
    tp1_multiplier tp2_multiplier runner_multiplier

/-- The result dictionary of `_simulate_trading` (lines 400 to 404). -/
structure SimResult where
  trades : List LedgerEntry
  daily_summaries : List Summary
  risk_summary : Summary
deriving DecidableEq

/-- Embeds `_simulate_trading` (lines 303 to 404): fold the bar loop over
the series, append the final daily summary, and snapshot the risk
summary. -/
def simulate_trading (rm : AdvancedRiskManager) (bars : List Bar)
    (tp1_multiplier tp2_multiplier runner_multiplier : ℚ) : SimResult :=
  let final := bars.foldl (simStep tp1_multiplier tp2_multiplier runner_multiplier)
    ⟨rm, [], [], none⟩
  let summaries :=
    match final.current_date with
    | none => final.daily_summaries
    | some d => final.daily_summaries ++ [final.rm.get_portfolio_summary (some d)]
  ⟨final.trades, summaries, final.rm.get_portfolio_summary none⟩

/-- The full metrics dictionary built at lines 474 to 486.  The field
`returns` records the daily-returns series of line 451 from which
`sharpe_ratio` is computed at line 454; the final Sharpe value multiplies
by the irrational square root of 252 and is therefore represented here by
the series it is a fixed function of. -/
structure Metrics where
  total_trades : Nat
  win_rate : ℚ
  profit_factor : PyFloat
  returns : List ℚ
  max_drawdown : ℚ
  total_return : ℚ
  avg_trade_return : ℚ
  best_trade : ℚ
  worst_trade : ℚ
  total_profit : ℚ
  total_loss : ℚ
deriving DecidableEq

/-- The three dictionary shapes `_calculate_enhanced_metrics` can return:
the all-zero dictionary of lines 421 to 431 when the trade list is empty,
the two-key dictionary of line 436 when no trade carries a pnl, and the
full dictionary otherwise. -/
inductive MetricsResult
  | noTrades
  | noClosedTrades (total_trades : Nat)
  | full (m : Metrics)
deriving DecidableEq

/-- Embeds `_calculate_enhanced_metrics` (lines 406 to 486). -/
def calculate_enhanced_metrics (trades : List LedgerEntry)
    (daily_summaries : List Summary) : MetricsResult :=
  if trades.isEmpty then .noTrades
  else
    let closed := closedPnls trades
    if closed.isEmpty then .noClosedTrades trades.length
    else
      let total_trades := closed.length
      let winning := closed.filter (fun p => 0 < p)
      let win_rate : ℚ := (winning.length : ℚ) / (total_trades : ℚ)
      let equity_curve := daily_summaries.map Summary.current_capital
      let emd :=
        if daily_summaries.isEmpty then (([] : List ℚ), (0 : ℚ), (0 : ℚ))
        else
          let returns := dailyReturns equity_curve
          let md := max_drawdown equity_curve
          let tr :=
            if 1 < equity_curve.length then
              (equity_curve.getLastD 0 - equity_curve.headD 0) / equity_curve.headD 0
            else 0
          (returns, md, tr)
      .full
        { total_trades := total_trades
          win_rate := win_rate
          profit_factor := profit_factor_of closed
          returns := emd.1
          max_drawdown := emd.2.1
          total_return := emd.2.2
          avg_trade_return := closed.sum / (total_trades : ℚ)
          best_trade := listMax closed
          worst_trade := listMin closed
          total_profit := total_profit_of closed
          total_loss := total_loss_of closed }

/-- The strategy and engine configuration consumed by
`run_enhanced_backtest` (lines 205 to 222), restricted to the parameters
the embedded pipeline depends on. -/
structure BacktestConfig where
  initial_capital : ℚ
  risk_per_trade : ℚ
  daily_loss_limit : ℚ
  rsi_oversold : ℚ
  rsi_overbought : ℚ
  momentum_lookback : Nat
  tp1_multiplier : ℚ
  tp2_multiplier : ℚ
  runner_multiplier : ℚ
  rsi_weight : ℚ
  wavetrend_weight : ℚ
  buy_sell_weight : ℚ
deriving DecidableEq

/-- One fetched bar series together with the indicator values the signal
stage consumes (the indicator primitives themselves live outside the
sources). -/
structure MarketData where
  timestamps : List Nat
  dates : List Int
  closes : List ℚ
  rsi_values : List ℚ
  wt : List (ℚ × ℚ)
deriving DecidableEq

/-- Attach the generated signal columns to the bar rows (lines 277 to
279). -/
def buildBars (data : MarketData) (signals : List SignalBundle) : List Bar :=
  (data.timestamps.zip (data.dates.zip (data.closes.zip signals))).map fun t =>
    ⟨t.1, t.2.1, t.2.2.1, t.2.2.2.final_long, t.2.2.2.final_short⟩

/-- Embeds the deterministic core of `run_enhanced_backtest` (lines 258
to 301): construct a fresh signal generator and a fresh risk manager,
generate the signals, run the simulation, and compute the metrics. -/
def runBacktest (cfg : BacktestConfig) (data : MarketData) :
    List SignalBundle × SimResult × MetricsResult :=
  let g : WeightedSignalGenerator :=
    ⟨cfg.rsi_weight, cfg.wavetrend_weight, cfg.buy_sell_weight⟩
  let signals := WeightedSignals.generate_weighted_signal g
    cfg.rsi_oversold cfg.rsi_overbought cfg.momentum_lookback
    data.rsi_values data.wt data.closes
  let bars := buildBars data signals
  let rm := AdvancedRiskManager.init cfg.initial_capital cfg.risk_per_trade
    cfg.daily_loss_limit
  let results := simulate_trading rm bars
    cfg.tp1_multiplier cfg.tp2_multiplier cfg.runner_multiplier
  (signals, results, calculate_enhanced_metrics results.trades results.daily_summaries)

end Backtester

namespace WeightedSignals

/-- C2: for every bar series and every weight configuration, each bundle
produced by `generate_weighted_signal` has `final_long` exactly when the
weighted signal exceeds 0.3 and `final_short` exactly when it is below
minus 0.3, and the two booleans are never both true. -/
theorem final_long_short_exclusive (g : WeightedSignalGenerator)
    (rsi_oversold rsi_overbought : ℚ) (momentum_lookback : Nat)
    (rsi_values : List ℚ) (wt : List (ℚ × ℚ)) (prices : List ℚ)
    (b : SignalBundle)
    (hb : b ∈ generate_weighted_signal g rsi_oversold rsi_overbought momentum_lookback
      rsi_values wt prices) :
    (b.final_long = true ↔ b.weighted_signal > 3/10) ∧
    (b.final_short = true ↔ b.weighted_signal < -(3/10)) ∧
    ¬(b.final_long = true ∧ b.final_short = true) := by
  simp only [generate_weighted_signal] at hb
  obtain ⟨t, -, rfl⟩ := List.mem_map.mp hb
  refine ⟨by simp [WeightedSignalGenerator.fuse], by simp [WeightedSignalGenerator.fuse], ?_⟩
  simp only [WeightedSignalGenerator.fuse, decide_eq_true_eq]
  rintro ⟨h1, h2⟩
  linarith

/-- Witness for C2 at a concrete bar series. -/
theorem final_long_short_exclusive_witness :
    ¬((⟨1, 1, 0, 4/5, true, false⟩ : SignalBundle).final_long = true ∧
      (⟨1, 1, 0, 4/5, true, false⟩ : SignalBundle).final_short = true) :=
  (final_long_short_exclusive ⟨2/5, 2/5, 1/5⟩ 30 70 20 [20] [(-60, -65)] [100]
    ⟨1, 1, 0, 4/5, true, false⟩ (by
      simp only [generate_weighted_signal, generate_rsi_signal, generate_wavetrend_signal,
        generate_buy_sell_signal, List.range_succ, List.range_zero, List.map,
        List.nil_append, List.zip_cons_cons, List.zip_nil_right]
      norm_num [WeightedSignalGenerator.fuse, rsiSignalOf, wtSignalOf, buySellSignalOf,
        rollingMean, clip])).2.2

/-- C3: construction fails exactly when the weight sum is more than 0.001
away from 1.0, and an accepted configuration stores the three weights
exactly as given (no normalization). -/
theorem init_weight_validation (a b c : ℚ) :
    ((∃ e, WeightedSignalGenerator.init a b c = Except.error e) ↔ |a + b + c - 1| > 1/1000) ∧
    (∀ g, WeightedSignalGenerator.init a b c = Except.ok g →
      g.rsi_weight = a ∧ g.wavetrend_weight = b ∧ g.buy_sell_weight = c) := by
  simp only [WeightedSignalGenerator.init]
  split_ifs with h
  · refine ⟨⟨fun _ => h, fun _ => ⟨"Weights must sum to 1.0", rfl⟩⟩, ?_⟩
    intro g hg
    exact nomatch hg
  · constructor
    · constructor
      · rintro ⟨e, he⟩
        exact nomatch he
      · intro hgt
        exact absurd hgt h
    · intro g hg
      injection hg with h2
      subst h2
      exact ⟨rfl, rfl, rfl⟩

/-- Witness for C3 at the default weight configuration. -/
theorem init_weight_validation_witness :
    (⟨2/5, 2/5, 1/5⟩ : WeightedSignalGenerator).rsi_weight = 2/5 ∧
    (⟨2/5, 2/5, 1/5⟩ : WeightedSignalGenerator).wavetrend_weight = 2/5 ∧
    (⟨2/5, 2/5, 1/5⟩ : WeightedSignalGenerator).buy_sell_weight = 1/5 :=
  (init_weight_validation (2/5) (2/5) (1/5)).2 ⟨2/5, 2/5, 1/5⟩
    (by norm_num [WeightedSignalGenerator.init])

/-- C5: the RSI sub-signal is 1 at or below the oversold level, minus 1 at
or above the overbought level, and otherwise the linear interpolation
anchored at 50 in between, on both sides of 50. -/
theorem rsi_signal_mapping (oversold overbought rsi_value : ℚ)
    (hov : oversold < 50) (hob : 50 < overbought) :
    (generate_rsi_signal oversold overbought [rsi_value] =
      [rsiSignalOf oversold overbought rsi_value]) ∧
    (rsi_value ≤ oversold → rsiSignalOf oversold overbought rsi_value = 1) ∧
    (overbought ≤ rsi_value → rsiSignalOf oversold overbought rsi_value = -1) ∧
    (oversold < rsi_value → rsi_value < 50 →
      rsiSignalOf oversold overbought rsi_value = (50 - rsi_value) / (50 - oversold)) ∧
    (50 ≤ rsi_value → rsi_value < overbought →
      rsiSignalOf oversold overbought rsi_value = -(rsi_value - 50) / (overbought - 50)) := by
  refine ⟨rfl, ?_, ?_, ?_, ?_⟩
  · intro h
    simp only [rsiSignalOf]
    rw [if_pos h]
  · intro h
    have h1 : ¬ rsi_value ≤ oversold := by linarith
    simp only [rsiSignalOf]
    rw [if_neg h1, if_pos h]
  · intro h1 h2
    have hn1 : ¬ rsi_value ≤ oversold := by linarith
    have hn2 : ¬ overbought ≤ rsi_value := by linarith
    simp only [rsiSignalOf]
    rw [if_neg hn1, if_neg hn2, if_pos h2]
  · intro h1 h2
    have hn1 : ¬ rsi_value ≤ oversold := by linarith
    have hn2 : ¬ overbought ≤ rsi_value := by linarith
    have hn3 : ¬ rsi_value < 50 := by linarith
    simp only [rsiSignalOf]
    rw [if_neg hn1, if_neg hn2, if_neg hn3]

/-- Witness for C5 at RSI 20 with the default 30/70 thresholds. -/
theorem rsi_signal_mapping_witness : rsiSignalOf 30 70 20 = 1 :=
  (rsi_signal_mapping 30 70 20 (by norm_num) (by norm_num)).2.1 (by norm_num)

/-- C6: the WaveTrend sub-signal is the four-way bucket of the source, and
the tie WT1 = WT2 deterministically lands in the minus 0.5 branch. -/
theorem wavetrend_signal_bucket (wt1 wt2 : ℚ) :
    (generate_wavetrend_signal [(wt1, wt2)] = [wtSignalOf wt1 wt2]) ∧
    (wt2 < wt1 → wt1 < -50 → wtSignalOf wt1 wt2 = 1) ∧
    (wt1 < wt2 → 50 < wt1 → wtSignalOf wt1 wt2 = -1) ∧
    (wt2 < wt1 → -50 ≤ wt1 → wtSignalOf wt1 wt2 = 1/2) ∧
    (wt1 < wt2 → wt1 ≤ 50 → wtSignalOf wt1 wt2 = -(1/2)) ∧
    (wt1 = wt2 → wtSignalOf wt1 wt2 = -(1/2)) := by
  refine ⟨rfl, ?_, ?_, ?_, ?_, ?_⟩
  · intro h1 h2
    simp only [wtSignalOf]
    rw [if_pos ⟨h1, h2⟩]
  · intro h1 h2
    have hn1 : ¬ (wt2 < wt1 ∧ wt1 < -50) := by rintro ⟨ha, -⟩; linarith
    simp only [wtSignalOf]
    rw [if_neg hn1, if_pos ⟨h1, h2⟩]
  · intro h1 h2
    have hn1 : ¬ (wt2 < wt1 ∧ wt1 < -50) := by rintro ⟨-, hb⟩; linarith
    have hn2 : ¬ (wt1 < wt2 ∧ 50 < wt1) := by rintro ⟨ha, -⟩; linarith
    simp only [wtSignalOf]
    rw [if_neg hn1, if_neg hn2, if_pos h1]
  · intro h1 h2
    have hn1 : ¬ (wt2 < wt1 ∧ wt1 < -50) := by rintro ⟨ha, -⟩; linarith
    have hn2 : ¬ (wt1 < wt2 ∧ 50 < wt1) := by rintro ⟨-, hb⟩; linarith
    have hn3 : ¬ wt2 < wt1 := by linarith
    simp only [wtSignalOf]
    rw [if_neg hn1, if_neg hn2, if_neg hn3]
  · intro h
    subst h
    have hn1 : ¬ (wt1 < wt1 ∧ wt1 < -50) := by rintro ⟨ha, -⟩; exact lt_irrefl _ ha
    have hn2 : ¬ (wt1 < wt1 ∧ 50 < wt1) := by rintro ⟨ha, -⟩; exact lt_irrefl _ ha
    have hn3 : ¬ wt1 < wt1 := lt_irrefl _
    simp only [wtSignalOf]
    rw [if_neg hn1, if_neg hn2, if_neg hn3]

/-- Witness for C6 at the tie WT1 = WT2 = 0. -/
theorem wavetrend_signal_bucket_witness : wtSignalOf 0 0 = -(1/2) :=
  (wavetrend_signal_bucket 0 0).2.2.2.2.2 rfl

/-- The RSI sub-signal map never leaves the interval [-1, 1], for any
threshold configuration (the interior branches are only reachable when
the respective threshold is on the correct side of 50). -/
theorem abs_rsiSignalOf_le_one (oversold overbought r : ℚ) :
    |rsiSignalOf oversold overbought r| ≤ 1 := by
  simp only [rsiSignalOf]
  split_ifs with h1 h2 h3
  · norm_num
  · norm_num
  · push_neg at h1 h2
    have hd : 0 < 50 - oversold := by linarith
    rw [abs_le]
    constructor
    · have hq : (0:ℚ) ≤ (50 - r) / (50 - oversold) := div_nonneg (by linarith) (by linarith)
      linarith
    · rw [div_le_one hd]
      linarith
  · push_neg at h1 h2 h3
    have hd : 0 < overbought - 50 := by linarith
    rw [abs_le, neg_div]
    constructor
    · rw [neg_le_neg_iff, div_le_one hd]
      linarith
    · have hq : (0:ℚ) ≤ (r - 50) / (overbought - 50) := div_nonneg (by linarith) (by linarith)
      linarith

/-- The WaveTrend sub-signal map never leaves the interval [-1, 1]. -/
theorem abs_wtSignalOf_le_one (wt1 wt2 : ℚ) : |wtSignalOf wt1 wt2| ≤ 1 := by
  simp only [wtSignalOf]
  split_ifs <;> rw [abs_le] <;> norm_num

/-- The momentum sub-signal map never leaves the interval [-1, 1] (it ends
in a clip to that interval). -/
theorem abs_buySellSignalOf_le_one (price sma_short sma_long : ℚ) :
    |buySellSignalOf price sma_short sma_long| ≤ 1 := by
  simp only [buySellSignalOf, clip]
  rw [abs_le]
  exact ⟨le_min (by norm_num) (le_max_left _ _), min_le_left _ _⟩

/-- C4 counterexample: the weight configuration (0.4005, 0.4, 0.2) is
accepted by the constructor, since its sum 1.0005 is within the 0.001
tolerance, yet on a concrete bar series the fused weighted signal reaches
1.0005, which is outside [-1, 1]. -/
theorem weighted_signal_range_cex :
    WeightedSignalGenerator.init (801/2000) (2/5) (1/5) =
      Except.ok ⟨801/2000, 2/5, 1/5⟩ ∧
    (⟨1, 1, 1, 2001/2000, true, false⟩ : SignalBundle) ∈
      generate_weighted_signal ⟨801/2000, 2/5, 1/5⟩ 30 70 20
        [20, 20, 20, 20, 20]
        [(-60, -65), (-60, -65), (-60, -65), (-60, -65), (-60, -65)]
        [100, 100, 100, 100, 200] ∧
    1 < (⟨1, 1, 1, 2001/2000, true, false⟩ : SignalBundle).weighted_signal := by
  have hacc : WeightedSignalGenerator.init (801/2000) (2/5) (1/5) =
      Except.ok ⟨801/2000, 2/5, 1/5⟩ := by
    have h : ¬ |(801/2000 : ℚ) + 2/5 + 1/5 - 1| > 1/1000 := by
      rw [show (801/2000 : ℚ) + 2/5 + 1/5 - 1 = 1/2000 by norm_num, abs_of_pos] <;> norm_num
    simp only [WeightedSignalGenerator.init]
    rw [if_neg h]
  refine ⟨hacc, ?_, by norm_num⟩
  simp only [generate_weighted_signal, generate_rsi_signal, generate_wavetrend_signal,
    generate_buy_sell_signal, List.range_succ, List.range_zero, List.map, List.nil_append,
    List.zip_cons_cons, List.zip_nil_right]
  norm_num [WeightedSignalGenerator.fuse, rsiSignalOf, wtSignalOf, buySellSignalOf,
    rollingMean, clip]

/-- C4 (amended): for every bar series and every weight configuration
accepted by the constructor whose three weights are nonnegative, the
fused weighted signal lies within [-1.001, 1.001] on every bar; the
original [-1, 1] bound fails for accepted sums strictly above 1 (see the
counterexample). -/
theorem weighted_signal_bounded (a b c rsi_oversold rsi_overbought : ℚ)
    (momentum_lookback : Nat)
    (rsi_values : List ℚ) (wt : List (ℚ × ℚ)) (prices : List ℚ)
    (g : WeightedSignalGenerator)
    (hg : WeightedSignalGenerator.init a b c = Except.ok g)
    (ha : 0 ≤ a) (hb : 0 ≤ b) (hc : 0 ≤ c)
    (bundle : SignalBundle)
    (hmem : bundle ∈ generate_weighted_signal g rsi_oversold rsi_overbought
      momentum_lookback rsi_values wt prices) :
    |bundle.weighted_signal| ≤ 1001/1000 := by
  have hsum : |a + b + c - 1| ≤ 1/1000 ∧ g = ⟨a, b, c⟩ := by
    simp only [WeightedSignalGenerator.init] at hg
    by_cases h : |a + b + c - 1| > 1/1000
    · rw [if_pos h] at hg
      exact nomatch hg
    · rw [if_neg h] at hg
      injection hg with h2
      exact ⟨not_lt.mp h, h2.symm⟩
  obtain ⟨hs, rfl⟩ := hsum
  simp only [generate_weighted_signal] at hmem
  obtain ⟨t, ht, rfl⟩ := List.mem_map.mp hmem
  obtain ⟨ht1, ht2⟩ := List.of_mem_zip ht
  obtain ⟨ht2a, ht2b⟩ := List.of_mem_zip ht2
  simp only [generate_rsi_signal] at ht1
  simp only [generate_wavetrend_signal] at ht2a
  simp only [generate_buy_sell_signal] at ht2b
  obtain ⟨x, -, hx⟩ := List.mem_map.mp ht1
  obtain ⟨y, -, hy⟩ := List.mem_map.mp ht2a
  obtain ⟨i, -, hi⟩ := List.mem_map.mp ht2b
  have h1 : |t.1| ≤ 1 := hx ▸ abs_rsiSignalOf_le_one _ _ _
  have h2 : |t.2.1| ≤ 1 := hy ▸ abs_wtSignalOf_le_one _ _
  have h3 : |t.2.2| ≤ 1 := hi ▸ abs_buySellSignalOf_le_one _ _ _
  obtain ⟨hr1, hr2⟩ := abs_le.mp h1
  obtain ⟨hw1, hw2⟩ := abs_le.mp h2
  obtain ⟨hm1, hm2⟩ := abs_le.mp h3
  obtain ⟨hs1, hs2⟩ := abs_le.mp hs
  simp only [WeightedSignalGenerator.fuse]
  rw [abs_le]
  have p1 : t.1 * a ≤ a := by nlinarith
  have p2 : -a ≤ t.1 * a := by nlinarith
  have p3 : t.2.1 * b ≤ b := by nlinarith
  have p4 : -b ≤ t.2.1 * b := by nlinarith
  have p5 : t.2.2 * c ≤ c := by nlinarith
  have p6 : -c ≤ t.2.2 * c := by nlinarith
  constructor <;> linarith

/-- Witness for the amended C4 at a concrete accepted configuration and
bar series. -/
theorem weighted_signal_bounded_witness :
    |(⟨1, 1, 0, 4/5, true, false⟩ : SignalBundle).weighted_signal| ≤ 1001/1000 :=
  weighted_signal_bounded (2/5) (2/5) (1/5) 30 70 20 [20] [(-60, -65)] [100]
    ⟨2/5, 2/5, 1/5⟩ (by norm_num [WeightedSignalGenerator.init])
    (by norm_num) (by norm_num) (by norm_num)
    ⟨1, 1, 0, 4/5, true, false⟩ (by
      simp only [generate_weighted_signal, generate_rsi_signal, generate_wavetrend_signal,
        generate_buy_sell_signal, List.range_succ, List.range_zero, List.map,
        List.nil_append, List.zip_cons_cons, List.zip_nil_right]
      norm_num [WeightedSignalGenerator.fuse, rsiSignalOf, wtSignalOf, buySellSignalOf,
        rollingMean, clip])

end WeightedSignals

namespace Backtester

/-- C10 counterexample: the timeframe 2y, offered as an example of a
supported timeframe absent from the conversion map, is in fact present in
the map and converts to itself, not to the daily interval. -/
theorem timeframe_cex :
    "2y" ∈ supported_timeframes ∧
    timeframe_map.lookup "2y" = some "2y" ∧
    convert_timeframe_to_yfinance "2y" = "2y" ∧
    ("2y" : String) ≠ "1d" := by decide

/-- C10 (amended): every timeframe that is a member of
`supported_timeframes` but absent from the conversion map (exactly the ten
timeframes 3m, 10m, 20m, 3h, 8h, 2d, 3d, 2w, 3w and 2M; the original
example 2y is in the map) passes validation in `run_enhanced_backtest`
and is silently converted to the daily interval. -/
theorem timeframe_silent_fallback :
    (∀ tf, tf ∈ supported_timeframes → timeframe_map.lookup tf = none →
      validate_timeframe tf = true ∧ run_enhanced_backtest_check tf = Except.ok () ∧
      convert_timeframe_to_yfinance tf = "1d") ∧
    (∀ tf ∈ (["3m", "10m", "20m", "3h", "8h", "2d", "3d", "2w", "3w", "2M"] : List String),
      tf ∈ supported_timeframes ∧ timeframe_map.lookup tf = none) := by
  constructor
  · intro tf hsup hmap
    refine ⟨List.elem_eq_true_of_mem hsup, ?_, ?_⟩
    · simp only [run_enhanced_backtest_check]
      rw [if_pos (List.elem_eq_true_of_mem hsup)]
    · simp only [convert_timeframe_to_yfinance, hmap, Option.getD_none]
  · decide

/-- Witness for the amended C10 at the timeframe 3m. -/
theorem timeframe_silent_fallback_witness :
    validate_timeframe "3m" = true ∧ run_enhanced_backtest_check "3m" = Except.ok () ∧
    convert_timeframe_to_yfinance "3m" = "1d" :=
  timeframe_silent_fallback.1 "3m" (by decide) (by decide)

/-- A list of negative rationals has a negative sum. -/
theorem list_sum_neg (l : List ℚ) (h : ∀ q ∈ l, q < 0) (hne : l ≠ []) : l.sum < 0 := by
  induction l with
  | nil => exact absurd rfl hne
  | cons x xs ih =>
    rw [List.sum_cons]
    rcases eq_or_ne xs [] with h2 | h2
    · subst h2
      simpa using h x (by simp)
    · have hx := h x (List.mem_cons_self x xs)
      have hxs := ih (fun q hq => h q (List.mem_cons_of_mem x hq)) h2
      linarith

/-- A losing closed trade makes the aggregate loss strictly positive. -/
theorem total_loss_pos_of_losing (closed : List ℚ) (p : ℚ)
    (hp : p ∈ closed) (hneg : p < 0) : 0 < total_loss_of closed := by
  have hmem : p ∈ closed.filter (fun q => q < 0) :=
    List.mem_filter.mpr ⟨hp, by simpa using hneg⟩
  have hall : ∀ q ∈ closed.filter (fun q => q < 0), q < 0 := by
    intro q hq
    simpa using (List.mem_filter.mp hq).2
  have hne : closed.filter (fun q => q < 0) ≠ [] := by
    intro h
    rw [h] at hmem
    exact absurd hmem (List.not_mem_nil p)
  have hsum := list_sum_neg _ hall hne
  rw [total_loss_of]
  exact abs_pos.mpr (ne_of_lt hsum)

/-- C1 counterexample: a ledger whose single closed trade has pnl 0 gives
total_profit = 0 and total_loss = 0, and the code then returns the
infinity marker for the profit factor, not 0 as the claim states. -/
theorem profit_factor_cex :
    total_profit_of (closedPnls [LedgerEntry.closeRec 1 "buy" 100 100 1 0 "stop_loss" 0]) = 0 ∧
    total_loss_of (closedPnls [LedgerEntry.closeRec 1 "buy" 100 100 1 0 "stop_loss" 0]) = 0 ∧
    calculate_enhanced_metrics [LedgerEntry.closeRec 1 "buy" 100 100 1 0 "stop_loss" 0] [] =
      MetricsResult.full ⟨1, 0, PyFloat.inf, [], 0, 0, 0, 0, 0, 0, 0⟩ ∧
    PyFloat.inf ≠ PyFloat.finite 0 := by
  refine ⟨?_, ?_, ?_, by simp⟩
  · norm_num [total_profit_of, closedPnls, LedgerEntry.pnl?, List.filterMap_cons,
      List.filter_cons, decide_eq_true_eq]
  · norm_num [total_loss_of, closedPnls, LedgerEntry.pnl?, List.filterMap_cons,
      List.filter_cons, decide_eq_true_eq]
  · norm_num [calculate_enhanced_metrics, closedPnls, LedgerEntry.pnl?, total_profit_of,
      total_loss_of, profit_factor_of, listMax, listMin, dailyReturns, List.filter_cons,
      List.filterMap_cons, decide_eq_true_eq]

/-- C1 (amended): over a non-empty closed-trade set, the profit factor
equals total_profit divided by total_loss when total_loss is positive, is
the infinity marker whenever total_loss is exactly 0 (including when
total_profit is 0 as well, where the claim expected 0), and is finite
whenever at least one losing trade exists. -/
theorem profit_factor_amended (trades : List LedgerEntry) (summaries : List Summary)
    (m : Metrics) (hm : calculate_enhanced_metrics trades summaries = MetricsResult.full m) :
    m.profit_factor = profit_factor_of (closedPnls trades) ∧
    m.total_profit = total_profit_of (closedPnls trades) ∧
    m.total_loss = total_loss_of (closedPnls trades) ∧
    (0 < total_loss_of (closedPnls trades) →
      m.profit_factor = PyFloat.finite
        (total_profit_of (closedPnls trades) / total_loss_of (closedPnls trades))) ∧
    (total_loss_of (closedPnls trades) = 0 → m.profit_factor = PyFloat.inf) ∧
    ((∃ p ∈ closedPnls trades, p < 0) → ∃ q, m.profit_factor = PyFloat.finite q) := by
  have hfields : m.profit_factor = profit_factor_of (closedPnls trades) ∧
      m.total_profit = total_profit_of (closedPnls trades) ∧
      m.total_loss = total_loss_of (closedPnls trades) := by
    simp only [calculate_enhanced_metrics] at hm
    split at hm
    · exact nomatch hm
    · split at hm
      · exact nomatch hm
      · injection hm with h2
        subst h2
        exact ⟨rfl, rfl, rfl⟩
  obtain ⟨hpf, htp, htl⟩ := hfields
  refine ⟨hpf, htp, htl, ?_, ?_, ?_⟩
  · intro h
    rw [hpf, profit_factor_of, if_pos h]
  · intro h
    rw [hpf, profit_factor_of, if_neg (by rw [h]; exact lt_irrefl 0)]
  · rintro ⟨p, hp, hneg⟩
    rw [hpf, profit_factor_of, if_pos (total_loss_pos_of_losing _ p hp hneg)]
    exact ⟨_, rfl⟩

/-- Witness for the amended C1 on a two-trade ledger with one winner and
one loser. -/
theorem profit_factor_amended_witness :
    (⟨2, 1/2, PyFloat.finite 1, [], 0, 0, 0, 10, -10, 10, 10⟩ : Metrics).profit_factor =
      profit_factor_of (closedPnls
        [LedgerEntry.closeRec 1 "buy" 100 90 1 (-10) "stop_loss" 0,
         LedgerEntry.closeRec 2 "buy" 100 110 1 10 "tp1" 0]) :=
  (profit_factor_amended
    [LedgerEntry.closeRec 1 "buy" 100 90 1 (-10) "stop_loss" 0,
     LedgerEntry.closeRec 2 "buy" 100 110 1 10 "tp1" 0] []
    ⟨2, 1/2, PyFloat.finite 1, [], 0, 0, 0, 10, -10, 10, 10⟩
    (by
      norm_num [calculate_enhanced_metrics, closedPnls, LedgerEntry.pnl?, total_profit_of,
        total_loss_of, profit_factor_of, listMax, listMin, dailyReturns, List.filter_cons,
        List.filterMap_cons, decide_eq_true_eq, max_def, min_def])).1

/-- The fold of min never exceeds its initial value. -/
theorem foldl_min_le (l : List ℚ) : ∀ a : ℚ, l.foldl min a ≤ a := by
  induction l with
  | nil => intro a; exact le_refl a
  | cons x xs ih => intro a; exact le_trans (ih (min a x)) (min_le_left a x)

/-- The accumulate tail equals the take-maximum form of the spec, with the
accumulator adjoined. -/
theorem runningPeakFrom_eq (l : List ℚ) : ∀ acc : ℚ,
    runningPeakFrom acc l =
      (List.range l.length).map fun i => listMax (acc :: l.take (i + 1)) := by
  induction l with
  | nil => intro acc; rfl
  | cons x xs ih =>
    intro acc
    rw [List.length_cons, List.range_succ_eq_map, List.map_cons, List.map_map]
    show max acc x :: runningPeakFrom (max acc x) xs = _
    rw [ih (max acc x)]
    congr 1

/-- `np.maximum.accumulate` computes, at each index, the maximum of the
prefix up to that index. -/
theorem runningPeak_eq (l : List ℚ) :
    runningPeak l = (List.range l.length).map fun i => listMax (l.take (i + 1)) := by
  cases l with
  | nil => rfl
  | cons x xs =>
    show x :: runningPeakFrom x xs = _
    rw [runningPeakFrom_eq xs x, List.length_cons, List.range_succ_eq_map, List.map_cons,
      List.map_map]
    congr 1

/-- The drawdown series in the indexed form of the spec formula. -/
theorem drawdowns_eq (l : List ℚ) :
    drawdowns l = (List.range l.length).map fun i =>
      (l.getD i 0 - listMax (l.take (i + 1))) / listMax (l.take (i + 1)) := by
  rw [drawdowns, runningPeak_eq]
  apply List.ext_getElem
  · simp
  · intro i h1 h2
    have hl : i < l.length := by simpa using h2
    simp [List.getElem_zipWith, List.getD_eq_getElem?_getD, List.getElem?_eq_getElem hl]

/-- C7: the computed max drawdown coincides with the spec formula (minimum
over time of (equity - running_peak)/running_peak), it is never positive
on a non-empty positive equity curve, and on the curve
[10000, 10500, 9800, 10200] it equals -1/15 (about -0.0667). -/
theorem max_drawdown_spec_correct (equity_curve : List ℚ)
    (hne : equity_curve ≠ []) (hpos : ∀ e ∈ equity_curve, 0 < e) :
    max_drawdown equity_curve = maxDrawdownSpec equity_curve ∧
    max_drawdown equity_curve ≤ 0 ∧
    max_drawdown [10000, 10500, 9800, 10200] = -(1/15) := by
  refine ⟨?_, ?_, ?_⟩
  · rw [max_drawdown, maxDrawdownSpec, drawdowns_eq]
  · obtain ⟨e, es, rfl⟩ := List.exists_cons_of_ne_nil hne
    have h0 : drawdowns (e :: es) =
        ((e - e) / e) :: List.zipWith (fun a p => (a - p) / p) es (runningPeakFrom e es) :=
      rfl
    rw [max_drawdown, h0, sub_self, zero_div]
    exact foldl_min_le _ 0
  · norm_num [max_drawdown, drawdowns, runningPeak, runningPeakFrom, listMin, max_def,
      min_def]

/-- Witness for C7 on the scenario C equity curve of the spec. -/
theorem max_drawdown_spec_correct_witness :
    max_drawdown [10000, 10500, 9800, 10200] =
      maxDrawdownSpec [10000, 10500, 9800, 10200] ∧
    max_drawdown [10000, 10500, 9800, 10200] ≤ 0 :=
  ⟨(max_drawdown_spec_correct [10000, 10500, 9800, 10200] (by simp) (by norm_num)).1,
   (max_drawdown_spec_correct [10000, 10500, 9800, 10200] (by simp) (by norm_num)).2.1⟩

/-- Every trade record emitted by update_position carries a pnl (it is an
exit record, never an entry record). -/
theorem update_position_trade_pnl (rm : AdvancedRiskManager) (pid : Nat) (price : ℚ)
    (ts : Nat) (t : LedgerEntry)
    (h : (rm.update_position pid price ts).2.1 = some t) : (t.pnl?).isSome = true := by
  obtain ⟨st, otr, rm2, he⟩ : ∃ st otr rm2, rm.update_position pid price ts = (st, otr, rm2) :=
    ⟨_, _, _, rfl⟩
  rw [he] at h
  simp only at h
  subst h
  simp only [AdvancedRiskManager.update_position] at he
  split at he
  · simp only [Prod.mk.injEq] at he
    exact nomatch he.2.1
  · split_ifs at he <;> simp only [Prod.mk.injEq] at he
    · obtain ⟨-, h2, -⟩ := he
      injection h2 with h3
      subst h3
      rfl
    · obtain ⟨-, h2, -⟩ := he
      injection h2 with h3
      subst h3
      rfl
    · obtain ⟨-, h2, -⟩ := he
      injection h2 with h3
      subst h3
      rfl
    · obtain ⟨-, h2, -⟩ := he
      injection h2 with h3
      subst h3
      rfl
    · exact nomatch he.2.1

/-- The latched breaker flag survives update_position. -/
theorem update_position_latch (rm : AdvancedRiskManager) (pid : Nat) (price : ℚ) (ts : Nat)
    (h : rm.breaker_triggered = true) :
    (rm.update_position pid price ts).2.2.breaker_triggered = true := by
  simp only [AdvancedRiskManager.update_position]
  split
  · exact h
  · split_ifs <;> simp [AdvancedRiskManager.applyRealized, h]

/-- One update-loop iteration preserves the latched breaker flag. -/
theorem updateStepF_latch (bar : Bar) (s : SimState) (p : Position)
    (h : s.rm.breaker_triggered = true) :
    (updateStepF bar s p).rm.breaker_triggered = true :=
  update_position_latch s.rm p.id bar.close bar.timestamp h

/-- The whole update loop preserves the latched breaker flag. -/
theorem foldl_updateStepF_latch (bar : Bar) (ps : List Position) :
    ∀ s : SimState, s.rm.breaker_triggered = true →
      (ps.foldl (updateStepF bar) s).rm.breaker_triggered = true := by
  induction ps with
  | nil => intro s h; exact h
  | cons p ps ih =>
    intro s h
    rw [List.foldl_cons]
    exact ih _ (updateStepF_latch bar s p h)

/-- Every ledger entry present after the update loop was either present
before it or is an exit record carrying a pnl. -/
theorem foldl_updateStepF_trades (bar : Bar) (ps : List Position) :
    ∀ (s : SimState) (t : LedgerEntry), t ∈ (ps.foldl (updateStepF bar) s).trades →
      t ∈ s.trades ∨ (t.pnl?).isSome = true := by
  induction ps with
  | nil => intro s t ht; exact Or.inl ht
  | cons p ps ih =>
    intro s t ht
    rw [List.foldl_cons] at ht
    rcases ih _ t ht with h | h
    · simp only [updateStepF] at h
      split at h
      · rcases List.mem_append.mp h with h2 | h2
        · exact Or.inl h2
        · refine Or.inr (update_position_trade_pnl s.rm p.id bar.close bar.timestamp t ?_)
          cases ho : (s.rm.update_position p.id bar.close bar.timestamp).2.1 with
          | none => rw [ho] at h2; exact nomatch h2
          | some tr =>
            rw [ho] at h2
            simp only [Option.toList_some, List.mem_singleton] at h2
            exact congrArg some h2.symm
      · exact Or.inl h
    · exact Or.inr h

/-- The day-rollover block never touches the trade ledger. -/
theorem dayRolloverPhase_trades (s : SimState) (bar : Bar) :
    (dayRolloverPhase s bar).trades = s.trades := by
  simp only [dayRolloverPhase]
  split
  · cases s.current_date <;> rfl
  · rfl

/-- The entry block does nothing while the daily breaker is triggered. -/
theorem entryPhase_skip (s : SimState) (bar : Bar) (t1 t2 t3 : ℚ)
    (h : s.rm.is_daily_breaker_triggered = true) :
    entryPhase s bar t1 t2 t3 = s := by
  simp [entryPhase, h]

/-- C8: on every bar on which the daily breaker is triggered at the entry
check, the step opens nothing (the whole step equals its update part, so
no open_position effect occurs and every appended ledger entry is an exit
record with a pnl, never an entry record); the latched breaker flag
survives the update loop, any state with the flag set reports the breaker
as triggered, and reset_daily_tracking at the day boundary clears the
breaker whenever the loss limit and the capital are positive. -/
theorem breaker_blocks_entries :
    (∀ (s : SimState) (bar : Bar) (t1 t2 t3 : ℚ),
      (updatePhase (dayRolloverPhase s bar) bar).rm.is_daily_breaker_triggered = true →
      simStep t1 t2 t3 s bar = updatePhase (dayRolloverPhase s bar) bar ∧
      ∀ t ∈ (simStep t1 t2 t3 s bar).trades, t ∈ s.trades ∨ (t.pnl?).isSome = true) ∧
    (∀ (s : SimState) (bar : Bar), s.rm.breaker_triggered = true →
      (updatePhase s bar).rm.breaker_triggered = true) ∧
    (∀ rm : AdvancedRiskManager, rm.breaker_triggered = true →
      rm.is_daily_breaker_triggered = true) ∧
    (∀ rm : AdvancedRiskManager, 0 < rm.daily_loss_limit → 0 < rm.current_capital →
      rm.reset_daily_tracking.is_daily_breaker_triggered = false) := by
  refine ⟨?_, ?_, ?_, ?_⟩
  · intro s bar t1 t2 t3 h
    have hstep : simStep t1 t2 t3 s bar = updatePhase (dayRolloverPhase s bar) bar :=
      entryPhase_skip _ bar t1 t2 t3 h
    refine ⟨hstep, ?_⟩
    intro t ht
    rw [hstep] at ht
    rcases foldl_updateStepF_trades bar (dayRolloverPhase s bar).rm.positions
        (dayRolloverPhase s bar) t ht with h2 | h2
    · rw [dayRolloverPhase_trades] at h2
      exact Or.inl h2
    · exact Or.inr h2
  · intro s bar h
    exact foldl_updateStepF_latch bar s.rm.positions s h
  · intro rm h
    simp [AdvancedRiskManager.is_daily_breaker_triggered, h]
  · intro rm h1 h2
    simp only [AdvancedRiskManager.reset_daily_tracking,
      AdvancedRiskManager.is_daily_breaker_triggered, Bool.false_or,
      decide_eq_false_iff_not, not_le]
    have := mul_pos h1 h2
    linarith

/-- Witness for C8 at a concrete triggered state and bar. -/
theorem breaker_blocks_entries_witness :
    simStep (3/2) 2 3
      ⟨⟨10000, 2/100, 5/100, 10000, -600, true, [], 1⟩, [], [], some 0⟩
      ⟨0, 0, 100, true, true⟩ =
    updatePhase (dayRolloverPhase
      ⟨⟨10000, 2/100, 5/100, 10000, -600, true, [], 1⟩, [], [], some 0⟩
      ⟨0, 0, 100, true, true⟩) ⟨0, 0, 100, true, true⟩ :=
  (breaker_blocks_entries.1
    ⟨⟨10000, 2/100, 5/100, 10000, -600, true, [], 1⟩, [], [], some 0⟩
    ⟨0, 0, 100, true, true⟩ (3/2) 2 3 rfl).1

/-- C9: the embedded pipeline is a pure function of the configuration and
the bar data, so two runs that construct their own signal generator and
risk manager from equal configurations over equal data produce identical
signal series, trade ledgers, daily summaries and metrics. -/
theorem backtest_deterministic (cfg1 cfg2 : BacktestConfig) (data1 data2 : MarketData)
    (hcfg : cfg1 = cfg2) (hdata : data1 = data2) :
    runBacktest cfg1 data1 = runBacktest cfg2 data2 := by
  rw [hcfg, hdata]

/-- Witness for C9 at a concrete configuration and a one-bar series. -/
theorem backtest_deterministic_witness :
    runBacktest ⟨10000, 2/100, 5/100, 30, 70, 20, 3/2, 2, 3, 2/5, 2/5, 1/5⟩
      ⟨[0], [0], [100], [20], [(-60, -65)]⟩ =
    runBacktest ⟨10000, 2/100, 5/100, 30, 70, 20, 3/2, 2, 3, 2/5, 2/5, 1/5⟩
      ⟨[0], [0], [100], [20], [(-60, -65)]⟩ :=
  backtest_deterministic _ _ _ _ rfl rfl

end Backtester

